import Mathlib

/-!
Shallow embedding of the combat engine of `src/dashboard.py` (Pokémon
Combat Simulator): the type-effectiveness resolver, the damage
calculator, the damaging-move filter and the round-based battle loop,
together with proofs of the specified properties.

External effects are modelled explicitly: catalog lookups (`fetch_type`,
`fetch_move`) are function parameters returning `Option`, and the
pseudo-random source (`random.random()`) is a parameter `rng : ℕ → ℚ`,
a stream of draws consumed in call order.  Python floats are modelled
as exact rationals and `int(...)` as truncation toward zero.
-/

namespace PokeSim

/-- Fixed level for all Pokémon (`LEVEL = 50` in the source). -/
def LEVEL : ℚ := 50

/-- Python `int(q)` applied to a float: truncation toward zero. -/
def truncToInt (q : ℚ) : ℤ :=
  if q < 0 then -(Int.floor (-q)) else Int.floor q

/-- Helper for Python `str.title()`: walks the characters tracking
whether the previous character was alphabetic; an alphabetic character
following a non-alphabetic one is uppercased, the rest are lowercased. -/
def titleAux : List Char → Bool → List Char
  | [], _ => []
  | c :: rest, prevAlpha =>
    if c.isAlpha then
      (if prevAlpha then c.toLower else c.toUpper) :: titleAux rest true
    else
      c :: titleAux rest false

/-- Python `s.title()` (used for display names in the log and winner). -/
def pyTitle (s : String) : String := String.mk (titleAux s.data false)

/-- Python `s.replace("-", " ")` (single-character replacement). -/
def dashToSpace (s : String) : String :=
  String.mk (s.data.map fun c => if c = '-' then ' ' else c)

/-- Stat mapping of a Pokémon (`parse_pokemon` projects the six base
stats; the spec's data model fixes them as non-negative integers). -/
structure Stats where
  hp : ℕ
  attack : ℕ
  defense : ℕ
  specialAttack : ℕ
  specialDefense : ℕ
  speed : ℕ
  deriving DecidableEq, Repr

/-- The `damage_relations` record returned by the type catalog lookup
(`fetch_type`): the three per-type damage lists, projected to names. -/
structure TypeRelations where
  double_damage_to : List String
  half_damage_to : List String
  no_damage_to : List String
  deriving DecidableEq, Repr

/-- A move profile as consumed by `calculate_damage`: `power` (spec data
model: integer ≥ 0 for damaging moves), `accuracy` (integer or null),
the move's elemental type name and damage-class name. -/
structure Move where
  name : String
  power : ℕ
  accuracy : Option ℤ
  moveType : String
  damageClass : String
  deriving DecidableEq, Repr

/-- A raw move record as inspected by `get_damaging_moves`
(`move_data.get("power")` may be absent/null). -/
structure MoveRec where
  power : Option ℕ
  deriving DecidableEq, Repr

/-- The check of `get_damaging_moves`:
`move_data and move_data.get("power") is not None and move_data["power"] > 0`. -/
def isDamaging : Option MoveRec → Bool
  | none => false
  | some md =>
    match md.power with
    | none => false
    | some p => decide (0 < p)

/-- The scan loop of `get_damaging_moves`: `checked` is the number of
moves already checked; returns the kept names together with the number
of `fetch_move` lookups performed (one per processed name; the loop
stops as soon as the running count reaches 50). -/
def damagingAux (fetch_move : String → Option MoveRec) :
    List String → ℕ → List String × ℕ
  | [], _ => ([], 0)
  | n :: rest, checked =>
    let here := if isDamaging (fetch_move n) then [n] else []
    if 50 ≤ checked + 1 then (here, 1)
    else
      let r := damagingAux fetch_move rest (checked + 1)
      (here ++ r.1, r.2 + 1)

/-- `get_damaging_moves`: the names kept by the capped scan. -/
def get_damaging_moves (fetch_move : String → Option MoveRec)
    (move_names : List String) : List String :=
  (damagingAux fetch_move move_names 0).1

/-- Number of `fetch_move` lookups performed by `get_damaging_moves`. -/
def lookupCount (fetch_move : String → Option MoveRec)
    (move_names : List String) : ℕ :=
  (damagingAux fetch_move move_names 0).2

/-- `get_type_effectiveness`: on a failed type lookup returns 1.0;
otherwise folds over the defender types, multiplying by 2.0, 0.5 or 0.0
according to the first matching damage-relation list. -/
def get_type_effectiveness (fetch_type : String → Option TypeRelations)
    (move_type : String) (defender_types : List String) : ℚ :=
  match fetch_type move_type with
  | none => 1
  | some dr =>
    defender_types.foldl
      (fun effectiveness d_type =>
        if d_type ∈ dr.double_damage_to then effectiveness * 2
        else if d_type ∈ dr.half_damage_to then effectiveness * (1 / 2)
        else if d_type ∈ dr.no_damage_to then effectiveness * 0
        else effectiveness)
      1

/-- The per-defending-type factor (first matching category wins); used
to state that `get_type_effectiveness` is a product of such factors. -/
def perTypeFactor (dr : TypeRelations) (d_type : String) : ℚ :=
  if d_type ∈ dr.double_damage_to then 2
  else if d_type ∈ dr.half_damage_to then 1 / 2
  else if d_type ∈ dr.no_damage_to then 0
  else 1

/-- `effectiveness_label`: human-readable tier for a multiplier. -/
def effectiveness_label (eff : ℚ) : String :=
  if eff = 0 then "No effect!"
  else if 4 ≤ eff then "It\x27s ultra effective!"
  else if 2 ≤ eff then "It\x27s super effective!"
  else if eff ≤ 1 / 4 then "It\x27s barely effective…"
  else if eff < 1 then "It\x27s not very effective…"
  else ""

/-- `move_data["accuracy"] if move_data["accuracy"] else 100`: Python
truthiness sends both `None` and `0` to the default 100. -/
def resolveAccuracy : Option ℤ → ℤ
  | none => 100
  | some a => if a = 0 then 100 else a

/-- Result triple of `calculate_damage`. -/
structure HitResult where
  damage : ℤ
  effectiveness : ℚ
  missed : Bool
  deriving DecidableEq, Repr

/-- `calculate_damage`: accuracy resolution, stat selection by damage
class, type effectiveness, the accuracy roll (`r` is the value drawn by
`random.random()`), the simplified damage formula under `int(...)`
truncation, and the missed flag. -/
def calculate_damage (fetch_type : String → Option TypeRelations)
    (attacker_stats defender_stats : Stats) (defender_types : List String)
    (move_data : Move) (r : ℚ) : HitResult :=
  let power := move_data.power
  let accuracy := resolveAccuracy move_data.accuracy
  let atk : ℕ :=
    if move_data.damageClass = "physical" then attacker_stats.attack
    else attacker_stats.specialAttack
  let dfn : ℕ :=
    if move_data.damageClass = "physical" then defender_stats.defense
    else defender_stats.specialDefense
  let effectiveness :=
    get_type_effectiveness fetch_type move_data.moveType defender_types
  let damage : ℤ :=
    if r < (accuracy : ℚ) / 100 then
      truncToInt
        (((2 * LEVEL / 5 + 2) * (power : ℚ) * ((atk : ℚ) / (dfn : ℚ)) / 50 + 2)
          * effectiveness)
    else 0
  { damage := damage
    effectiveness := effectiveness
    missed := decide (damage = 0 ∧ effectiveness ≠ 0) }

/-- A combatant as consumed by `simulate_battle` (name, type list and
stat mapping of the parsed profile). -/
structure Pokemon where
  name : String
  types : List String
  stats : Stats
  deriving DecidableEq, Repr

/-- One row appended to `battle_log`. -/
structure TurnEvent where
  round : ℕ
  attacker : String
  move : String
  damage : ℤ
  effectiveness : ℚ
  note : String
  defenderHP : ℤ
  deriving DecidableEq, Repr

/-- One row appended to `hp_history`. -/
structure HpSample where
  round : ℕ
  pokemon : String
  hp : ℤ
  deriving DecidableEq, Repr

/-- Result of executing one attacker/defender pair of the inner loop:
updated HP of both sides and the logged event. -/
structure TurnOut where
  h1 : ℤ
  h2 : ℤ
  ev : TurnEvent
  deriving DecidableEq, Repr

/-- Result of one round's inner loop: the events appended, the updated
HP of both sides and the updated random-stream position. -/
structure RoundOut where
  evs : List TurnEvent
  h1 : ℤ
  h2 : ℤ
  ctr : ℕ
  deriving DecidableEq, Repr

/-- Result of the round loop: battle log tail, hp-history tail and the
final HP of both sides. -/
structure LoopOut where
  log : List TurnEvent
  hist : List HpSample
  h1 : ℤ
  h2 : ℤ
  deriving DecidableEq, Repr

/-- One iteration of the inner `for attacker, atk_move, defender,
def_key in order` loop body: compute the hit, apply the damage to the
defender (floored at 0, `def_key` modelled by `defIsP1`) and build the
logged event. -/
def execTurn (fetch_type : String → Option TypeRelations) (rnd : ℕ)
    (attacker : Pokemon) (atk_move : Move) (defender : Pokemon)
    (defIsP1 : Bool) (h1 h2 : ℤ) (r : ℚ) : TurnOut :=
  let res := calculate_damage fetch_type attacker.stats defender.stats
    defender.types atk_move r
  let defHpAfter := max 0 ((if defIsP1 then h1 else h2) - res.damage)
  { h1 := if defIsP1 then defHpAfter else h1
    h2 := if defIsP1 then h2 else defHpAfter
    ev :=
      { round := rnd
        attacker := pyTitle attacker.name
        move := pyTitle (dashToSpace atk_move.name)
        damage := res.damage
        effectiveness := res.effectiveness
        note := if res.missed then "Missed!"
                else effectiveness_label res.effectiveness
        defenderHP := defHpAfter } }

/-- The inner `for ... in order` loop of one round, for a decided order
given by the first turn `t1` and the second turn `t2` (as a function of
the HP state left by the first): if the defender's HP after the first
hit is ≤ 0 the loop breaks and the second attacker does not act,
otherwise the second attacker acts.  Each executed turn consumes one
random draw, accounted in the returned counter. -/
def twoTurns (t1 : TurnOut) (t2 : ℤ → ℤ → TurnOut) (ctr : ℕ) : RoundOut :=
  if t1.ev.defenderHP ≤ 0 then ⟨[t1.ev], t1.h1, t1.h2, ctr + 1⟩
  else
    ⟨[t1.ev, (t2 t1.h1 t1.h2).ev],
      (t2 t1.h1 t1.h2).h1, (t2 t1.h1 t1.h2).h2, ctr + 2⟩

/-- The inner loop of one round for a decided order: if `firstIsP1`
then p1 attacks first (p2 defends, `def_key = "p2"`), else p2 attacks
first. -/
def runOrder (fetch_type : String → Option TypeRelations) (rnd : ℕ)
    (p1 : Pokemon) (p1_move : Move) (p2 : Pokemon) (p2_move : Move)
    (firstIsP1 : Bool) (h1 h2 : ℤ) (rng : ℕ → ℚ) (ctr : ℕ) : RoundOut :=
  if firstIsP1 then
    twoTurns (execTurn fetch_type rnd p1 p1_move p2 false h1 h2 (rng ctr))
      (fun x y => execTurn fetch_type rnd p2 p2_move p1 true x y (rng (ctr + 1)))
      ctr
  else
    twoTurns (execTurn fetch_type rnd p2 p2_move p1 true h1 h2 (rng ctr))
      (fun x y => execTurn fetch_type rnd p1 p1_move p2 false x y (rng (ctr + 1)))
      ctr

/-- One full round: decide turn order by speed (higher speed first; on a
tie one random draw decides, p1 first iff the draw is < 0.5), then run
the inner loop. -/
def runRound (fetch_type : String → Option TypeRelations) (rnd : ℕ)
    (p1 : Pokemon) (p1_move : Move) (p2 : Pokemon) (p2_move : Move)
    (rng : ℕ → ℚ) (ctr : ℕ) (h1 h2 : ℤ) : RoundOut :=
  let firstIsP1 :=
    if p1.stats.speed > p2.stats.speed then true
    else if p2.stats.speed > p1.stats.speed then false
    else decide (rng ctr < 1 / 2)
  let ctr1 :=
    if p1.stats.speed > p2.stats.speed then ctr
    else if p2.stats.speed > p1.stats.speed then ctr
    else ctr + 1
  runOrder fetch_type rnd p1 p1_move p2 p2_move firstIsP1 h1 h2 rng ctr1

/-- The `for rnd in range(1, 101)` loop of `simulate_battle`: `fuel` is
the number of remaining rounds (100 at the top call), `rnd` the current
round number.  After each round two hp samples are appended; the loop
stops when either side's HP is ≤ 0 or the fuel runs out. -/
def battleLoop (fetch_type : String → Option TypeRelations) (p1 : Pokemon)
    (p1_move : Move) (p2 : Pokemon) (p2_move : Move) (rng : ℕ → ℚ) :
    ℕ → ℕ → ℕ → ℤ → ℤ → LoopOut
  | _, 0, _, h1, h2 => ⟨[], [], h1, h2⟩
  | rnd, fuel + 1, ctr, h1, h2 =>
    let o := runRound fetch_type rnd p1 p1_move p2 p2_move rng ctr h1 h2
    if o.h1 ≤ 0 ∨ o.h2 ≤ 0 then
      ⟨o.evs, [⟨rnd, p1.name, o.h1⟩, ⟨rnd, p2.name, o.h2⟩], o.h1, o.h2⟩
    else
      let rest := battleLoop fetch_type p1 p1_move p2 p2_move rng
        (rnd + 1) fuel o.ctr o.h1 o.h2
      ⟨o.evs ++ rest.log,
        ⟨rnd, p1.name, o.h1⟩ :: ⟨rnd, p2.name, o.h2⟩ :: rest.hist,
        rest.h1, rest.h2⟩

/-- Result triple of `simulate_battle`. -/
structure BattleResult where
  log : List TurnEvent
  hist : List HpSample
  winner : String
  deriving DecidableEq, Repr

/-- `simulate_battle`: initial HP from the hp stats, round-0 samples,
the bounded round loop, and winner determination. -/
def simulate_battle (fetch_type : String → Option TypeRelations)
    (p1 : Pokemon) (p1_move : Move) (p2 : Pokemon) (p2_move : Move)
    (rng : ℕ → ℚ) : BattleResult :=
  let p1_hp : ℤ := p1.stats.hp
  let p2_hp : ℤ := p2.stats.hp
  let o := battleLoop fetch_type p1 p1_move p2 p2_move rng 1 100 0 p1_hp p2_hp
  { log := o.log
    hist := ⟨0, p1.name, p1_hp⟩ :: ⟨0, p2.name, p2_hp⟩ :: o.hist
    winner :=
      if o.h1 ≤ 0 ∧ o.h2 ≤ 0 then "It\x27s a draw!"
      else if o.h1 ≤ 0 then pyTitle p2.name
      else if o.h2 ≤ 0 then pyTitle p1.name
      else "Draw — 100-round limit reached!" }

/-- Samples at even positions of `hp_history` (the per-round p1 rows). -/
def evens : List HpSample → List HpSample
  | [] => []
  | [a] => [a]
  | a :: _ :: t => a :: evens t

/-- Samples at odd positions of `hp_history` (the per-round p2 rows). -/
def odds : List HpSample → List HpSample
  | [] => []
  | [_] => []
  | _ :: b :: t => b :: odds t

/-- Shape invariant of the hp-history tail produced by the round loop:
an alternating sequence of p1/p2 samples sharing a round number, with
HP non-negative and bounded by the preceding HP of the same side. -/
inductive HistChain (n1 n2 : String) : ℤ → ℤ → List HpSample → Prop
  | nil {a b : ℤ} : HistChain n1 n2 a b []
  | cons {a b : ℤ} (r : ℕ) (x y : ℤ) (l : List HpSample)
      (hx0 : 0 ≤ x) (hy0 : 0 ≤ y) (hxa : x ≤ a) (hyb : y ≤ b)
      (tail : HistChain n1 n2 x y l) :
      HistChain n1 n2 a b (⟨r, n1, x⟩ :: ⟨r, n2, y⟩ :: l)

def ftW : String → Option TypeRelations := fun _ => none

def rngW : ℕ → ℚ := fun _ => 0

def aC1 : Stats := ⟨10, 100, 1, 1, 1, 1⟩

def dC1 : Stats := ⟨10, 1, 50, 1, 1, 1⟩

def mC1 : Move := ⟨"tackle", 40, some 100, "normal", "physical"⟩

def drQ : TypeRelations := ⟨[], ["rock", "steel"], []⟩

def ftQ : String → Option TypeRelations :=
  fun t => if t = "normal" then some drQ else none

def aQ : Stats := ⟨10, 1, 1, 1, 1, 1⟩

def dQ : Stats := ⟨10, 1, 100, 1, 100, 1⟩

def mQ : Move := ⟨"pound", 1, some 100, "normal", "physical"⟩

def drZ : TypeRelations := ⟨[], [], ["g"]⟩

def ftZ : String → Option TypeRelations :=
  fun t => if t = "x" then some drZ else none

def mW : Move := ⟨"m", 40, some 100, "x", "physical"⟩

def sW1 : Stats := ⟨5, 100, 1, 1, 1, 2⟩

def sW2 : Stats := ⟨5, 1, 1, 1, 1, 1⟩

def pW1 : Pokemon := ⟨"a", [], sW1⟩

def pW2 : Pokemon := ⟨"b", [], sW2⟩

def evW : TurnEvent := ⟨1, "A", "M", 1762, 1, "", 0⟩

def sZ1 : Stats := ⟨0, 100, 1, 1, 1, 2⟩

def sZ2 : Stats := ⟨0, 1, 1, 1, 1, 1⟩

def pZ1 : Pokemon := ⟨"a", [], sZ1⟩

def pZ2 : Pokemon := ⟨"b", [], sZ2⟩

def mAcc0 : Move := ⟨"swift", 60, some 0, "normal", "physical"⟩

/-! ### Lemmas and verified properties

The `*_eval` lemmas evaluate the embedding on the concrete instances
above (the kernel cannot reduce rational arithmetic, so evaluation is
done by rewriting); the `battleLoop_*` lemmas are the loop invariants
of the battle simulation. -/

lemma truncToInt_eq_floor {q : ℚ} (h : 0 ≤ q) : truncToInt q = Int.floor q := by
  rw [truncToInt, if_neg (not_lt.mpr h)]

lemma truncToInt_nonneg {q : ℚ} (h : 0 ≤ q) : 0 ≤ truncToInt q := by
  rw [truncToInt_eq_floor h]
  exact Int.floor_nonneg.mpr h

lemma truncToInt_zero : truncToInt 0 = 0 := by
  rw [truncToInt_eq_floor le_rfl]
  exact Int.floor_zero

lemma gte_none {ft : String → Option TypeRelations} {mt : String}
    (ts : List String) (h : ft mt = none) :
    get_type_effectiveness ft mt ts = 1 := by
  simp [get_type_effectiveness, h]

lemma gte_eq_prod {ft : String → Option TypeRelations} {mt : String}
    (ts : List String) {dr : TypeRelations} (h : ft mt = some dr) :
    get_type_effectiveness ft mt ts = (ts.map (perTypeFactor dr)).prod := by
  simp only [get_type_effectiveness, h]
  suffices hgen : ∀ (l : List String) (a : ℚ),
      l.foldl
        (fun effectiveness d_type =>
          if d_type ∈ dr.double_damage_to then effectiveness * 2
          else if d_type ∈ dr.half_damage_to then effectiveness * (1 / 2)
          else if d_type ∈ dr.no_damage_to then effectiveness * 0
          else effectiveness)
        a = a * (l.map (perTypeFactor dr)).prod by
    simpa using hgen ts 1
  intro l
  induction l with
  | nil => intro a; simp
  | cons x xs ih =>
    intro a
    simp only [List.foldl_cons, List.map_cons, List.prod_cons, ih]
    rw [perTypeFactor]
    split_ifs <;> ring

lemma perTypeFactor_mem (dr : TypeRelations) (d : String) :
    perTypeFactor dr d ∈ ([2, 1 / 2, 0, 1] : List ℚ) := by
  rw [perTypeFactor]
  split_ifs <;> simp

lemma perTypeFactor_nonneg (dr : TypeRelations) (d : String) :
    0 ≤ perTypeFactor dr d := by
  rw [perTypeFactor]
  split_ifs <;> norm_num

lemma gte_nonneg (ft : String → Option TypeRelations) (mt : String)
    (ts : List String) : 0 ≤ get_type_effectiveness ft mt ts := by
  cases h : ft mt with
  | none => rw [gte_none ts h]; norm_num
  | some dr =>
    rw [gte_eq_prod ts h]
    apply List.prod_nonneg
    intro a ha
    simp only [List.mem_map] at ha
    obtain ⟨d, _, rfl⟩ := ha
    exact perTypeFactor_nonneg dr d

lemma calculate_damage_effectiveness (ft : String → Option TypeRelations)
    (a d : Stats) (ts : List String) (m : Move) (r : ℚ) :
    (calculate_damage ft a d ts m r).effectiveness =
      get_type_effectiveness ft m.moveType ts := by
  simp [calculate_damage]

lemma calculate_damage_nonneg (ft : String → Option TypeRelations)
    (a d : Stats) (ts : List String) (m : Move) (r : ℚ) :
    0 ≤ (calculate_damage ft a d ts m r).damage := by
  have key : ∀ x y : ℕ,
      0 ≤ truncToInt (((2 * LEVEL / 5 + 2) * (m.power : ℚ) * ((x : ℚ) / (y : ℚ)) / 50 + 2)
        * get_type_effectiveness ft m.moveType ts) := by
    intro x y
    apply truncToInt_nonneg
    apply mul_nonneg _ (gte_nonneg ft m.moveType ts)
    rw [LEVEL]
    positivity
  simp only [calculate_damage]
  split_ifs with h1 h2
  · exact key a.attack d.defense
  · exact key a.specialAttack d.specialDefense
  · norm_num

lemma calculate_damage_miss (ft : String → Option TypeRelations)
    (a d : Stats) (ts : List String) (m : Move) (r : ℚ)
    (h : ¬ r < (resolveAccuracy m.accuracy : ℚ) / 100) :
    (calculate_damage ft a d ts m r).damage = 0 := by
  simp [calculate_damage, if_neg h]

lemma calculate_damage_missed_def (ft : String → Option TypeRelations)
    (a d : Stats) (ts : List String) (m : Move) (r : ℚ) :
    (calculate_damage ft a d ts m r).missed =
      decide ((calculate_damage ft a d ts m r).damage = 0 ∧
        (calculate_damage ft a d ts m r).effectiveness ≠ 0) := rfl

lemma calculate_damage_missed_iff (ft : String → Option TypeRelations)
    (a d : Stats) (ts : List String) (m : Move) (r : ℚ) :
    (calculate_damage ft a d ts m r).missed = true ↔
      ((calculate_damage ft a d ts m r).damage = 0 ∧
        (calculate_damage ft a d ts m r).effectiveness ≠ 0) := by
  rw [calculate_damage_missed_def, decide_eq_true_iff]

lemma gteQ_eval : get_type_effectiveness ftQ "normal" ["rock", "steel"] = 1 / 4 := by
  simp [get_type_effectiveness, ftQ, drQ]
  norm_num

lemma calc_quarter_eval : calculate_damage ftQ aQ dQ ["rock", "steel"] mQ 0 = ⟨0, 1 / 4, true⟩ := by
  have h0 : (⌊((22 * (1:ℚ) * (1 / 100) / 50 + 2) * (1 / 4) : ℚ)⌋ : ℤ) = 0 := by
    rw [Int.floor_eq_iff] ; norm_num
  simp only [calculate_damage, resolveAccuracy, mQ, aQ, dQ, LEVEL, gteQ_eval]
  norm_num
  rw [truncToInt_eq_floor (by norm_num)]
  norm_num [h0]

lemma gteZ_eval : get_type_effectiveness ftZ "x" ["g"] = 0 := by
  simp [get_type_effectiveness, ftZ, drZ]

lemma calc_immune_eval : calculate_damage ftZ aC1 dC1 ["g"] mW 0 = ⟨0, 0, false⟩ := by
  simp only [calculate_damage, resolveAccuracy, mW, aC1, dC1, LEVEL, gteZ_eval]
  norm_num
  rw [truncToInt_eq_floor (by norm_num)]
  norm_num

lemma hitW_eval : calculate_damage ftW sW1 sW2 [] mW 0 = ⟨1762, 1, false⟩ := by
  have h1762 : (⌊((22 * (40:ℚ) * (100 / 1) / 50 + 2) * 1 : ℚ)⌋ : ℤ) = 1762 := by
    rw [Int.floor_eq_iff] ; norm_num
  have hg : get_type_effectiveness ftW "x" [] = 1 := gte_none [] rfl
  simp only [calculate_damage, resolveAccuracy, mW, sW1, sW2, LEVEL, hg]
  norm_num
  rw [truncToInt_eq_floor (by norm_num)]
  norm_num [h1762]

lemma execW_eval : execTurn ftW 1 pW1 mW pW2 false 5 5 0 = ⟨5, 0, evW⟩ := by
  have hne : pW2.types = [] := rfl
  have hst1 : pW1.stats = sW1 := rfl
  have hst2 : pW2.stats = sW2 := rfl
  simp only [execTurn, hne, hst1, hst2, hitW_eval]
  norm_num [evW, effectiveness_label]
  constructor
  · rfl
  · rfl

lemma roundW_eval : runRound ftW 1 pW1 mW pW2 mW rngW 0 5 5 = ⟨[evW], 5, 0, 1⟩ := by
  have hsp : pW1.stats.speed > pW2.stats.speed := by decide
  simp only [runRound, if_pos hsp, runOrder]
  norm_num [rngW, execW_eval, evW, twoTurns]

lemma loopW_eval : battleLoop ftW pW1 mW pW2 mW rngW 1 100 0 5 5 =
    ⟨[evW], [⟨1, "a", 5⟩, ⟨1, "b", 0⟩], 5, 0⟩ := by
  rw [battleLoop]
  norm_num [roundW_eval]
  exact ⟨rfl, rfl⟩

lemma simW_eval : simulate_battle ftW pW1 mW pW2 mW rngW =
    ⟨[evW], [⟨0, "a", 5⟩, ⟨0, "b", 5⟩, ⟨1, "a", 5⟩, ⟨1, "b", 0⟩], "A"⟩ := by
  have hh1 : (pW1.stats.hp : ℤ) = 5 := rfl
  have hh2 : (pW2.stats.hp : ℤ) = 5 := rfl
  simp only [simulate_battle, hh1, hh2, loopW_eval]
  norm_num
  simp [pW1, pW2, pyTitle, titleAux]

lemma hitZ_eval : calculate_damage ftW sZ1 sZ2 [] mW 0 = ⟨1762, 1, false⟩ := by
  have h1762 : (⌊((22 * (40:ℚ) * (100 / 1) / 50 + 2) * 1 : ℚ)⌋ : ℤ) = 1762 := by
    rw [Int.floor_eq_iff] ; norm_num
  have hg : get_type_effectiveness ftW "x" [] = 1 := gte_none [] rfl
  simp only [calculate_damage, resolveAccuracy, mW, sZ1, sZ2, LEVEL, hg]
  norm_num
  rw [truncToInt_eq_floor (by norm_num)]
  norm_num [h1762]

lemma execZ_eval : execTurn ftW 1 pZ1 mW pZ2 false 0 0 0 = ⟨0, 0, evW⟩ := by
  have hne : pZ2.types = [] := rfl
  have hst1 : pZ1.stats = sZ1 := rfl
  have hst2 : pZ2.stats = sZ2 := rfl
  simp only [execTurn, hne, hst1, hst2, hitZ_eval]
  norm_num [evW, effectiveness_label]
  constructor
  · rfl
  · rfl

lemma roundZ_eval : runRound ftW 1 pZ1 mW pZ2 mW rngW 0 0 0 = ⟨[evW], 0, 0, 1⟩ := by
  have hsp : pZ1.stats.speed > pZ2.stats.speed := by decide
  simp only [runRound, if_pos hsp, runOrder]
  norm_num [rngW, execZ_eval, evW, twoTurns]

lemma loopZ_eval : battleLoop ftW pZ1 mW pZ2 mW rngW 1 100 0 0 0 =
    ⟨[evW], [⟨1, "a", 0⟩, ⟨1, "b", 0⟩], 0, 0⟩ := by
  rw [battleLoop]
  norm_num [roundZ_eval]
  exact ⟨rfl, rfl⟩

lemma simZ_winner : (simulate_battle ftW pZ1 mW pZ2 mW rngW).winner = "It\x27s a draw!" := by
  have hh1 : (pZ1.stats.hp : ℤ) = 0 := rfl
  have hh2 : (pZ2.stats.hp : ℤ) = 0 := rfl
  simp only [simulate_battle, hh1, hh2, loopZ_eval]
  norm_num

lemma execTurn_round (ft : String → Option TypeRelations) (rnd : ℕ)
    (a : Pokemon) (mv : Move) (d : Pokemon) (b : Bool) (h1 h2 : ℤ) (r : ℚ) :
    (execTurn ft rnd a mv d b h1 h2 r).ev.round = rnd := by
  cases b <;> rfl

lemma twoTurns_rounds (rnd : ℕ) (t1 : TurnOut) (t2 : ℤ → ℤ → TurnOut) (c : ℕ)
    (H1 : t1.ev.round = rnd) (H2 : ∀ x y, (t2 x y).ev.round = rnd) :
    ∀ e ∈ (twoTurns t1 t2 c).evs, e.round = rnd := by
  intro e he
  rw [twoTurns] at he
  split_ifs at he with h
  · dsimp only at he
    simp only [List.mem_singleton] at he
    subst he; exact H1
  · dsimp only at he
    simp only [List.mem_cons, List.not_mem_nil, or_false] at he
    rcases he with he | he <;> (subst he; first | exact H1 | exact H2 _ _)

lemma twoTurns_evs_cases (t1 : TurnOut) (t2 : ℤ → ℤ → TurnOut) (c : ℕ) :
    (∃ e, (twoTurns t1 t2 c).evs = [e]) ∨
      (∃ e1 e2, (twoTurns t1 t2 c).evs = [e1, e2] ∧ ¬ e1.defenderHP ≤ 0) := by
  rw [twoTurns]
  split_ifs with h
  · exact Or.inl ⟨t1.ev, rfl⟩
  · exact Or.inr ⟨t1.ev, (t2 t1.h1 t1.h2).ev, rfl, h⟩

lemma twoTurns_hp (t1 : TurnOut) (t2 : ℤ → ℤ → TurnOut) (c : ℕ) (a b : ℤ)
    (h1le : t1.h1 ≤ a) (h2le : t1.h2 ≤ b) (h1n : 0 ≤ t1.h1) (h2n : 0 ≤ t1.h2)
    (H1le : (t2 t1.h1 t1.h2).h1 ≤ t1.h1) (H2le : (t2 t1.h1 t1.h2).h2 ≤ t1.h2)
    (H1n : 0 ≤ (t2 t1.h1 t1.h2).h1) (H2n : 0 ≤ (t2 t1.h1 t1.h2).h2) :
    ((twoTurns t1 t2 c).h1 ≤ a ∧ (twoTurns t1 t2 c).h2 ≤ b) ∧
      (0 ≤ (twoTurns t1 t2 c).h1 ∧ 0 ≤ (twoTurns t1 t2 c).h2) := by
  rw [twoTurns]
  split_ifs with h
  · exact ⟨⟨h1le, h2le⟩, h1n, h2n⟩
  · exact ⟨⟨le_trans H1le h1le, le_trans H2le h2le⟩, H1n, H2n⟩

lemma twoTurns_not_both (t1 : TurnOut) (t2 : ℤ → ℤ → TurnOut) (c : ℕ)
    (case1 : t1.ev.defenderHP ≤ 0 → ¬(t1.h1 ≤ 0 ∧ t1.h2 ≤ 0))
    (case2 : ¬ t1.ev.defenderHP ≤ 0 →
      ¬((t2 t1.h1 t1.h2).h1 ≤ 0 ∧ (t2 t1.h1 t1.h2).h2 ≤ 0)) :
    ¬((twoTurns t1 t2 c).h1 ≤ 0 ∧ (twoTurns t1 t2 c).h2 ≤ 0) := by
  rw [twoTurns]
  split_ifs with h
  · exact case1 h
  · exact case2 h

lemma execTurn_defHP_eq_true (ft : String → Option TypeRelations) (rnd : ℕ)
    (a : Pokemon) (mv : Move) (d : Pokemon) (h1 h2 : ℤ) (r : ℚ) :
    (execTurn ft rnd a mv d true h1 h2 r).ev.defenderHP =
      (execTurn ft rnd a mv d true h1 h2 r).h1 := rfl

lemma execTurn_defHP_eq_false (ft : String → Option TypeRelations) (rnd : ℕ)
    (a : Pokemon) (mv : Move) (d : Pokemon) (h1 h2 : ℤ) (r : ℚ) :
    (execTurn ft rnd a mv d false h1 h2 r).ev.defenderHP =
      (execTurn ft rnd a mv d false h1 h2 r).h2 := rfl

lemma execTurn_h1_false (ft : String → Option TypeRelations) (rnd : ℕ)
    (a : Pokemon) (mv : Move) (d : Pokemon) (h1 h2 : ℤ) (r : ℚ) :
    (execTurn ft rnd a mv d false h1 h2 r).h1 = h1 := rfl

lemma execTurn_h2_true (ft : String → Option TypeRelations) (rnd : ℕ)
    (a : Pokemon) (mv : Move) (d : Pokemon) (h1 h2 : ℤ) (r : ℚ) :
    (execTurn ft rnd a mv d true h1 h2 r).h2 = h2 := rfl

lemma execTurn_h1_le (ft : String → Option TypeRelations) (rnd : ℕ)
    (a : Pokemon) (mv : Move) (d : Pokemon) (b : Bool) (h1 h2 : ℤ) (r : ℚ)
    (h : 0 ≤ h1) : (execTurn ft rnd a mv d b h1 h2 r).h1 ≤ h1 := by
  have hd := calculate_damage_nonneg ft a.stats d.stats d.types mv r
  cases b
  · exact le_of_eq rfl
  · show max 0 (h1 - (calculate_damage ft a.stats d.stats d.types mv r).damage) ≤ h1
    exact max_le h (by linarith)

lemma execTurn_h2_le (ft : String → Option TypeRelations) (rnd : ℕ)
    (a : Pokemon) (mv : Move) (d : Pokemon) (b : Bool) (h1 h2 : ℤ) (r : ℚ)
    (h : 0 ≤ h2) : (execTurn ft rnd a mv d b h1 h2 r).h2 ≤ h2 := by
  have hd := calculate_damage_nonneg ft a.stats d.stats d.types mv r
  cases b
  · show max 0 (h2 - (calculate_damage ft a.stats d.stats d.types mv r).damage) ≤ h2
    exact max_le h (by linarith)
  · exact le_of_eq rfl

lemma execTurn_h1_nonneg (ft : String → Option TypeRelations) (rnd : ℕ)
    (a : Pokemon) (mv : Move) (d : Pokemon) (b : Bool) (h1 h2 : ℤ) (r : ℚ)
    (h : 0 ≤ h1) : 0 ≤ (execTurn ft rnd a mv d b h1 h2 r).h1 := by
  cases b
  · exact h
  · exact le_max_left 0 _

lemma execTurn_h2_nonneg (ft : String → Option TypeRelations) (rnd : ℕ)
    (a : Pokemon) (mv : Move) (d : Pokemon) (b : Bool) (h1 h2 : ℤ) (r : ℚ)
    (h : 0 ≤ h2) : 0 ≤ (execTurn ft rnd a mv d b h1 h2 r).h2 := by
  cases b
  · exact le_max_left 0 _
  · exact h

lemma runOrder_false_eq (ft : String → Option TypeRelations) (rnd : ℕ)
    (p1 : Pokemon) (m1 : Move) (p2 : Pokemon) (m2 : Move)
    (h1 h2 : ℤ) (rng : ℕ → ℚ) (c : ℕ) :
    runOrder ft rnd p1 m1 p2 m2 false h1 h2 rng c =
      twoTurns (execTurn ft rnd p2 m2 p1 true h1 h2 (rng c))
        (fun x y => execTurn ft rnd p1 m1 p2 false x y (rng (c + 1))) c := rfl

lemma runOrder_true_eq (ft : String → Option TypeRelations) (rnd : ℕ)
    (p1 : Pokemon) (m1 : Move) (p2 : Pokemon) (m2 : Move)
    (h1 h2 : ℤ) (rng : ℕ → ℚ) (c : ℕ) :
    runOrder ft rnd p1 m1 p2 m2 true h1 h2 rng c =
      twoTurns (execTurn ft rnd p1 m1 p2 false h1 h2 (rng c))
        (fun x y => execTurn ft rnd p2 m2 p1 true x y (rng (c + 1))) c := rfl

lemma runOrder_rounds (ft : String → Option TypeRelations) (rnd : ℕ)
    (p1 : Pokemon) (m1 : Move) (p2 : Pokemon) (m2 : Move) (b : Bool)
    (h1 h2 : ℤ) (rng : ℕ → ℚ) (c : ℕ) :
    ∀ e ∈ (runOrder ft rnd p1 m1 p2 m2 b h1 h2 rng c).evs, e.round = rnd := by
  cases b
  · rw [runOrder_false_eq]
    exact twoTurns_rounds rnd _ _ c (execTurn_round ..)
      (fun x y => execTurn_round ..)
  · rw [runOrder_true_eq]
    exact twoTurns_rounds rnd _ _ c (execTurn_round ..)
      (fun x y => execTurn_round ..)

lemma runOrder_evs_cases (ft : String → Option TypeRelations) (rnd : ℕ)
    (p1 : Pokemon) (m1 : Move) (p2 : Pokemon) (m2 : Move) (b : Bool)
    (h1 h2 : ℤ) (rng : ℕ → ℚ) (c : ℕ) :
    (∃ e, (runOrder ft rnd p1 m1 p2 m2 b h1 h2 rng c).evs = [e]) ∨
      (∃ e1 e2, (runOrder ft rnd p1 m1 p2 m2 b h1 h2 rng c).evs = [e1, e2] ∧
        ¬ e1.defenderHP ≤ 0) := by
  cases b
  · rw [runOrder_false_eq]
    exact twoTurns_evs_cases _ _ c
  · rw [runOrder_true_eq]
    exact twoTurns_evs_cases _ _ c

lemma runOrder_hp (ft : String → Option TypeRelations) (rnd : ℕ)
    (p1 : Pokemon) (m1 : Move) (p2 : Pokemon) (m2 : Move) (b : Bool)
    (h1 h2 : ℤ) (rng : ℕ → ℚ) (c : ℕ) (h01 : 0 ≤ h1) (h02 : 0 ≤ h2) :
    ((runOrder ft rnd p1 m1 p2 m2 b h1 h2 rng c).h1 ≤ h1 ∧
      (runOrder ft rnd p1 m1 p2 m2 b h1 h2 rng c).h2 ≤ h2) ∧
      (0 ≤ (runOrder ft rnd p1 m1 p2 m2 b h1 h2 rng c).h1 ∧
        0 ≤ (runOrder ft rnd p1 m1 p2 m2 b h1 h2 rng c).h2) := by
  cases b
  · rw [runOrder_false_eq]
    refine twoTurns_hp _ _ c h1 h2 ?_ ?_ ?_ ?_ ?_ ?_ ?_ ?_
    · exact execTurn_h1_le ft rnd p2 m2 p1 true h1 h2 (rng c) h01
    · exact execTurn_h2_le ft rnd p2 m2 p1 true h1 h2 (rng c) h02
    · exact execTurn_h1_nonneg ft rnd p2 m2 p1 true h1 h2 (rng c) h01
    · exact execTurn_h2_nonneg ft rnd p2 m2 p1 true h1 h2 (rng c) h02
    · exact execTurn_h1_le ft rnd p1 m1 p2 false _ _ (rng (c + 1))
        (execTurn_h1_nonneg ft rnd p2 m2 p1 true h1 h2 (rng c) h01)
    · exact execTurn_h2_le ft rnd p1 m1 p2 false _ _ (rng (c + 1))
        (execTurn_h2_nonneg ft rnd p2 m2 p1 true h1 h2 (rng c) h02)
    · exact execTurn_h1_nonneg ft rnd p1 m1 p2 false _ _ (rng (c + 1))
        (execTurn_h1_nonneg ft rnd p2 m2 p1 true h1 h2 (rng c) h01)
    · exact execTurn_h2_nonneg ft rnd p1 m1 p2 false _ _ (rng (c + 1))
        (execTurn_h2_nonneg ft rnd p2 m2 p1 true h1 h2 (rng c) h02)
  · rw [runOrder_true_eq]
    refine twoTurns_hp _ _ c h1 h2 ?_ ?_ ?_ ?_ ?_ ?_ ?_ ?_
    · exact execTurn_h1_le ft rnd p1 m1 p2 false h1 h2 (rng c) h01
    · exact execTurn_h2_le ft rnd p1 m1 p2 false h1 h2 (rng c) h02
    · exact execTurn_h1_nonneg ft rnd p1 m1 p2 false h1 h2 (rng c) h01
    · exact execTurn_h2_nonneg ft rnd p1 m1 p2 false h1 h2 (rng c) h02
    · exact execTurn_h1_le ft rnd p2 m2 p1 true _ _ (rng (c + 1))
        (execTurn_h1_nonneg ft rnd p1 m1 p2 false h1 h2 (rng c) h01)
    · exact execTurn_h2_le ft rnd p2 m2 p1 true _ _ (rng (c + 1))
        (execTurn_h2_nonneg ft rnd p1 m1 p2 false h1 h2 (rng c) h02)
    · exact execTurn_h1_nonneg ft rnd p2 m2 p1 true _ _ (rng (c + 1))
        (execTurn_h1_nonneg ft rnd p1 m1 p2 false h1 h2 (rng c) h01)
    · exact execTurn_h2_nonneg ft rnd p2 m2 p1 true _ _ (rng (c + 1))
        (execTurn_h2_nonneg ft rnd p1 m1 p2 false h1 h2 (rng c) h02)

lemma runOrder_not_both (ft : String → Option TypeRelations) (rnd : ℕ)
    (p1 : Pokemon) (m1 : Move) (p2 : Pokemon) (m2 : Move) (b : Bool)
    (h1 h2 : ℤ) (rng : ℕ → ℚ) (c : ℕ) (h01 : 0 < h1) (h02 : 0 < h2) :
    ¬((runOrder ft rnd p1 m1 p2 m2 b h1 h2 rng c).h1 ≤ 0 ∧
      (runOrder ft rnd p1 m1 p2 m2 b h1 h2 rng c).h2 ≤ 0) := by
  cases b
  · rw [runOrder_false_eq]
    apply twoTurns_not_both
    · intro _ hboth
      rw [execTurn_h2_true] at hboth
      exact absurd hboth.2 (not_le.mpr h02)
    · intro hne hboth
      rw [execTurn_defHP_eq_true] at hne
      rw [execTurn_h1_false] at hboth
      exact absurd hboth.1 hne
  · rw [runOrder_true_eq]
    apply twoTurns_not_both
    · intro _ hboth
      rw [execTurn_h1_false] at hboth
      exact absurd hboth.1 (not_le.mpr h01)
    · intro hne hboth
      rw [execTurn_defHP_eq_false] at hne
      rw [execTurn_h2_true] at hboth
      exact absurd hboth.2 hne

lemma runRound_eq (ft : String → Option TypeRelations) (rnd : ℕ)
    (p1 : Pokemon) (m1 : Move) (p2 : Pokemon) (m2 : Move)
    (rng : ℕ → ℚ) (c : ℕ) (h1 h2 : ℤ) :
    runRound ft rnd p1 m1 p2 m2 rng c h1 h2 =
      runOrder ft rnd p1 m1 p2 m2
        (if p1.stats.speed > p2.stats.speed then true
         else if p2.stats.speed > p1.stats.speed then false
         else decide (rng c < 1 / 2)) h1 h2 rng
        (if p1.stats.speed > p2.stats.speed then c
         else if p2.stats.speed > p1.stats.speed then c
         else c + 1) := rfl

lemma runRound_rounds (ft : String → Option TypeRelations) (rnd : ℕ)
    (p1 : Pokemon) (m1 : Move) (p2 : Pokemon) (m2 : Move)
    (rng : ℕ → ℚ) (c : ℕ) (h1 h2 : ℤ) :
    ∀ e ∈ (runRound ft rnd p1 m1 p2 m2 rng c h1 h2).evs, e.round = rnd := by
  rw [runRound_eq]
  exact runOrder_rounds ft rnd p1 m1 p2 m2 _ h1 h2 rng _

lemma runRound_evs_cases (ft : String → Option TypeRelations) (rnd : ℕ)
    (p1 : Pokemon) (m1 : Move) (p2 : Pokemon) (m2 : Move)
    (rng : ℕ → ℚ) (c : ℕ) (h1 h2 : ℤ) :
    (∃ e, (runRound ft rnd p1 m1 p2 m2 rng c h1 h2).evs = [e]) ∨
      (∃ e1 e2, (runRound ft rnd p1 m1 p2 m2 rng c h1 h2).evs = [e1, e2] ∧
        ¬ e1.defenderHP ≤ 0) := by
  rw [runRound_eq]
  exact runOrder_evs_cases ft rnd p1 m1 p2 m2 _ h1 h2 rng _

lemma runRound_hp (ft : String → Option TypeRelations) (rnd : ℕ)
    (p1 : Pokemon) (m1 : Move) (p2 : Pokemon) (m2 : Move)
    (rng : ℕ → ℚ) (c : ℕ) (h1 h2 : ℤ) (h01 : 0 ≤ h1) (h02 : 0 ≤ h2) :
    ((runRound ft rnd p1 m1 p2 m2 rng c h1 h2).h1 ≤ h1 ∧
      (runRound ft rnd p1 m1 p2 m2 rng c h1 h2).h2 ≤ h2) ∧
      (0 ≤ (runRound ft rnd p1 m1 p2 m2 rng c h1 h2).h1 ∧
        0 ≤ (runRound ft rnd p1 m1 p2 m2 rng c h1 h2).h2) := by
  rw [runRound_eq]
  exact runOrder_hp ft rnd p1 m1 p2 m2 _ h1 h2 rng _ h01 h02

lemma runRound_not_both (ft : String → Option TypeRelations) (rnd : ℕ)
    (p1 : Pokemon) (m1 : Move) (p2 : Pokemon) (m2 : Move)
    (rng : ℕ → ℚ) (c : ℕ) (h1 h2 : ℤ) (h01 : 0 < h1) (h02 : 0 < h2) :
    ¬((runRound ft rnd p1 m1 p2 m2 rng c h1 h2).h1 ≤ 0 ∧
      (runRound ft rnd p1 m1 p2 m2 rng c h1 h2).h2 ≤ 0) := by
  rw [runRound_eq]
  exact runOrder_not_both ft rnd p1 m1 p2 m2 _ h1 h2 rng _ h01 h02

lemma battleLoop_zero (ft : String → Option TypeRelations)
    (p1 : Pokemon) (m1 : Move) (p2 : Pokemon) (m2 : Move) (rng : ℕ → ℚ)
    (rnd c : ℕ) (h1 h2 : ℤ) :
    battleLoop ft p1 m1 p2 m2 rng rnd 0 c h1 h2 = ⟨[], [], h1, h2⟩ := rfl

lemma battleLoop_succ (ft : String → Option TypeRelations)
    (p1 : Pokemon) (m1 : Move) (p2 : Pokemon) (m2 : Move) (rng : ℕ → ℚ)
    (rnd fuel c : ℕ) (h1 h2 : ℤ) :
    battleLoop ft p1 m1 p2 m2 rng rnd (fuel + 1) c h1 h2 =
      (if (runRound ft rnd p1 m1 p2 m2 rng c h1 h2).h1 ≤ 0 ∨
          (runRound ft rnd p1 m1 p2 m2 rng c h1 h2).h2 ≤ 0 then
        ⟨(runRound ft rnd p1 m1 p2 m2 rng c h1 h2).evs,
          [⟨rnd, p1.name, (runRound ft rnd p1 m1 p2 m2 rng c h1 h2).h1⟩,
            ⟨rnd, p2.name, (runRound ft rnd p1 m1 p2 m2 rng c h1 h2).h2⟩],
          (runRound ft rnd p1 m1 p2 m2 rng c h1 h2).h1,
          (runRound ft rnd p1 m1 p2 m2 rng c h1 h2).h2⟩
      else
        ⟨(runRound ft rnd p1 m1 p2 m2 rng c h1 h2).evs ++
            (battleLoop ft p1 m1 p2 m2 rng (rnd + 1) fuel
              (runRound ft rnd p1 m1 p2 m2 rng c h1 h2).ctr
              (runRound ft rnd p1 m1 p2 m2 rng c h1 h2).h1
              (runRound ft rnd p1 m1 p2 m2 rng c h1 h2).h2).log,
          ⟨rnd, p1.name, (runRound ft rnd p1 m1 p2 m2 rng c h1 h2).h1⟩ ::
            ⟨rnd, p2.name, (runRound ft rnd p1 m1 p2 m2 rng c h1 h2).h2⟩ ::
              (battleLoop ft p1 m1 p2 m2 rng (rnd + 1) fuel
                (runRound ft rnd p1 m1 p2 m2 rng c h1 h2).ctr
                (runRound ft rnd p1 m1 p2 m2 rng c h1 h2).h1
                (runRound ft rnd p1 m1 p2 m2 rng c h1 h2).h2).hist,
          (battleLoop ft p1 m1 p2 m2 rng (rnd + 1) fuel
            (runRound ft rnd p1 m1 p2 m2 rng c h1 h2).ctr
            (runRound ft rnd p1 m1 p2 m2 rng c h1 h2).h1
            (runRound ft rnd p1 m1 p2 m2 rng c h1 h2).h2).h1,
          (battleLoop ft p1 m1 p2 m2 rng (rnd + 1) fuel
            (runRound ft rnd p1 m1 p2 m2 rng c h1 h2).ctr
            (runRound ft rnd p1 m1 p2 m2 rng c h1 h2).h1
            (runRound ft rnd p1 m1 p2 m2 rng c h1 h2).h2).h2⟩) := rfl

lemma battleLoop_log_rounds (ft : String → Option TypeRelations)
    (p1 : Pokemon) (m1 : Move) (p2 : Pokemon) (m2 : Move) (rng : ℕ → ℚ) :
    ∀ (fuel rnd c : ℕ) (h1 h2 : ℤ),
      ∀ e ∈ (battleLoop ft p1 m1 p2 m2 rng rnd fuel c h1 h2).log,
        rnd ≤ e.round ∧ e.round < rnd + fuel := by
  intro fuel
  induction fuel with
  | zero =>
    intro rnd c h1 h2 e he
    rw [battleLoop_zero] at he
    simp at he
  | succ fuel ih =>
    intro rnd c h1 h2 e he
    rw [battleLoop_succ] at he
    by_cases hstop : (runRound ft rnd p1 m1 p2 m2 rng c h1 h2).h1 ≤ 0 ∨
        (runRound ft rnd p1 m1 p2 m2 rng c h1 h2).h2 ≤ 0
    · rw [if_pos hstop] at he
      dsimp only at he
      have := runRound_rounds ft rnd p1 m1 p2 m2 rng c h1 h2 e he
      omega
    · rw [if_neg hstop] at he
      dsimp only at he
      rcases List.mem_append.mp he with he | he
      · have := runRound_rounds ft rnd p1 m1 p2 m2 rng c h1 h2 e he
        omega
      · have := ih (rnd + 1) _ _ _ e he
        omega

lemma battleLoop_hist_rounds (ft : String → Option TypeRelations)
    (p1 : Pokemon) (m1 : Move) (p2 : Pokemon) (m2 : Move) (rng : ℕ → ℚ) :
    ∀ (fuel rnd c : ℕ) (h1 h2 : ℤ),
      ∀ s ∈ (battleLoop ft p1 m1 p2 m2 rng rnd fuel c h1 h2).hist,
        rnd ≤ s.round ∧ s.round < rnd + fuel := by
  intro fuel
  induction fuel with
  | zero =>
    intro rnd c h1 h2 s hs
    rw [battleLoop_zero] at hs
    simp at hs
  | succ fuel ih =>
    intro rnd c h1 h2 s hs
    rw [battleLoop_succ] at hs
    by_cases hstop : (runRound ft rnd p1 m1 p2 m2 rng c h1 h2).h1 ≤ 0 ∨
        (runRound ft rnd p1 m1 p2 m2 rng c h1 h2).h2 ≤ 0
    · rw [if_pos hstop] at hs
      dsimp only at hs
      simp only [List.mem_cons, List.not_mem_nil, or_false] at hs
      rcases hs with rfl | rfl
      · exact ⟨le_refl rnd, by show rnd < rnd + (fuel + 1); omega⟩
      · exact ⟨le_refl rnd, by show rnd < rnd + (fuel + 1); omega⟩
    · rw [if_neg hstop] at hs
      dsimp only at hs
      simp only [List.mem_cons] at hs
      rcases hs with rfl | rfl | hs
      · exact ⟨le_refl rnd, by show rnd < rnd + (fuel + 1); omega⟩
      · exact ⟨le_refl rnd, by show rnd < rnd + (fuel + 1); omega⟩
      · have := ih (rnd + 1) _ _ _ s hs
        omega

lemma battleLoop_pairwise (ft : String → Option TypeRelations)
    (p1 : Pokemon) (m1 : Move) (p2 : Pokemon) (m2 : Move) (rng : ℕ → ℚ) :
    ∀ (fuel rnd c : ℕ) (h1 h2 : ℤ),
      List.Pairwise (fun a b => a.defenderHP = 0 → b.round ≠ a.round)
        (battleLoop ft p1 m1 p2 m2 rng rnd fuel c h1 h2).log := by
  intro fuel
  induction fuel with
  | zero =>
    intro rnd c h1 h2
    rw [battleLoop_zero]
    simp
  | succ fuel ih =>
    intro rnd c h1 h2
    have hevs : List.Pairwise (fun a b => a.defenderHP = 0 → b.round ≠ a.round)
        (runRound ft rnd p1 m1 p2 m2 rng c h1 h2).evs := by
      rcases runRound_evs_cases ft rnd p1 m1 p2 m2 rng c h1 h2 with
        ⟨e, heq⟩ | ⟨e1, e2, heq, hne⟩
      · rw [heq]; simp
      · rw [heq]
        refine List.pairwise_cons.mpr ⟨?_, by simp⟩
        intro e he h0
        exact absurd (le_of_eq h0) hne
    rw [battleLoop_succ]
    by_cases hstop : (runRound ft rnd p1 m1 p2 m2 rng c h1 h2).h1 ≤ 0 ∨
        (runRound ft rnd p1 m1 p2 m2 rng c h1 h2).h2 ≤ 0
    · rw [if_pos hstop]
      exact hevs
    · rw [if_neg hstop]
      dsimp only
      rw [List.pairwise_append]
      refine ⟨hevs, ih (rnd + 1) _ _ _, ?_⟩
      intro a ha b hb h0
      have hra := runRound_rounds ft rnd p1 m1 p2 m2 rng c h1 h2 a ha
      have hrb := (battleLoop_log_rounds ft p1 m1 p2 m2 rng fuel (rnd + 1) _ _ _ b hb).1
      omega

lemma battleLoop_hist_chain (ft : String → Option TypeRelations)
    (p1 : Pokemon) (m1 : Move) (p2 : Pokemon) (m2 : Move) (rng : ℕ → ℚ) :
    ∀ (fuel rnd c : ℕ) (h1 h2 : ℤ), 0 ≤ h1 → 0 ≤ h2 →
      HistChain p1.name p2.name h1 h2
        (battleLoop ft p1 m1 p2 m2 rng rnd fuel c h1 h2).hist := by
  intro fuel
  induction fuel with
  | zero =>
    intro rnd c h1 h2 h01 h02
    rw [battleLoop_zero]
    exact HistChain.nil
  | succ fuel ih =>
    intro rnd c h1 h2 h01 h02
    obtain ⟨⟨hle1, hle2⟩, hn1, hn2⟩ := runRound_hp ft rnd p1 m1 p2 m2 rng c h1 h2 h01 h02
    rw [battleLoop_succ]
    by_cases hstop : (runRound ft rnd p1 m1 p2 m2 rng c h1 h2).h1 ≤ 0 ∨
        (runRound ft rnd p1 m1 p2 m2 rng c h1 h2).h2 ≤ 0
    · rw [if_pos hstop]
      exact HistChain.cons rnd _ _ [] hn1 hn2 hle1 hle2 HistChain.nil
    · rw [if_neg hstop]
      exact HistChain.cons rnd _ _ _ hn1 hn2 hle1 hle2 (ih (rnd + 1) _ _ _ hn1 hn2)

lemma battleLoop_not_both (ft : String → Option TypeRelations)
    (p1 : Pokemon) (m1 : Move) (p2 : Pokemon) (m2 : Move) (rng : ℕ → ℚ) :
    ∀ (fuel rnd c : ℕ) (h1 h2 : ℤ), 0 < h1 → 0 < h2 →
      ¬((battleLoop ft p1 m1 p2 m2 rng rnd fuel c h1 h2).h1 ≤ 0 ∧
        (battleLoop ft p1 m1 p2 m2 rng rnd fuel c h1 h2).h2 ≤ 0) := by
  intro fuel
  induction fuel with
  | zero =>
    intro rnd c h1 h2 h01 h02
    rw [battleLoop_zero]
    intro hboth
    exact absurd hboth.1 (not_le.mpr h01)
  | succ fuel ih =>
    intro rnd c h1 h2 h01 h02
    rw [battleLoop_succ]
    by_cases hstop : (runRound ft rnd p1 m1 p2 m2 rng c h1 h2).h1 ≤ 0 ∨
        (runRound ft rnd p1 m1 p2 m2 rng c h1 h2).h2 ≤ 0
    · rw [if_pos hstop]
      exact runRound_not_both ft rnd p1 m1 p2 m2 rng c h1 h2 h01 h02
    · rw [if_neg hstop]
      push_neg at hstop
      exact ih (rnd + 1) _ _ _ hstop.1 hstop.2

lemma evens_cons_cons (a b : HpSample) (l : List HpSample) :
    evens (a :: b :: l) = a :: evens l := rfl

lemma odds_cons_cons (a b : HpSample) (l : List HpSample) :
    odds (a :: b :: l) = b :: odds l := rfl

lemma histChain_mem_nonneg {n1 n2 : String} {a b : ℤ} {l : List HpSample}
    (hc : HistChain n1 n2 a b l) : ∀ s ∈ l, 0 ≤ s.hp := by
  induction hc with
  | nil => simp
  | cons r x y l hx0 hy0 hxa hyb tail ih =>
    intro s hs
    simp only [List.mem_cons] at hs
    rcases hs with rfl | rfl | hs
    · exact hx0
    · exact hy0
    · exact ih s hs

lemma histChain_evens {n1 n2 : String} {a b : ℤ} {l : List HpSample}
    (hc : HistChain n1 n2 a b l) :
    List.Chain' (fun x y => y.hp ≤ x.hp) (evens l) ∧
      (∀ s ∈ (evens l).head?, s.hp ≤ a) ∧
      (∀ s ∈ evens l, s.pokemon = n1 ∧ 0 ≤ s.hp) := by
  induction hc with
  | nil => simp [evens]
  | cons r x y l hx0 hy0 hxa hyb tail ih =>
    rw [evens_cons_cons]
    refine ⟨?_, ?_, ?_⟩
    · rw [List.chain'_cons']
      exact ⟨fun s hs => ih.2.1 s hs, ih.1⟩
    · intro s hs
      simp only [List.head?_cons, Option.mem_def, Option.some_inj] at hs
      subst hs
      exact hxa
    · intro s hs
      simp only [List.mem_cons] at hs
      rcases hs with rfl | hs
      · exact ⟨rfl, hx0⟩
      · exact (ih.2.2 s hs)

lemma histChain_odds {n1 n2 : String} {a b : ℤ} {l : List HpSample}
    (hc : HistChain n1 n2 a b l) :
    List.Chain' (fun x y => y.hp ≤ x.hp) (odds l) ∧
      (∀ s ∈ (odds l).head?, s.hp ≤ b) ∧
      (∀ s ∈ odds l, s.pokemon = n2 ∧ 0 ≤ s.hp) := by
  induction hc with
  | nil => simp [odds]
  | cons r x y l hx0 hy0 hxa hyb tail ih =>
    rw [odds_cons_cons]
    refine ⟨?_, ?_, ?_⟩
    · rw [List.chain'_cons']
      exact ⟨fun s hs => ih.2.1 s hs, ih.1⟩
    · intro s hs
      simp only [List.head?_cons, Option.mem_def, Option.some_inj] at hs
      subst hs
      exact hyb
    · intro s hs
      simp only [List.mem_cons] at hs
      rcases hs with rfl | hs
      · exact ⟨rfl, hy0⟩
      · exact (ih.2.2 s hs)

lemma simulate_battle_eq (ft : String → Option TypeRelations)
    (p1 : Pokemon) (m1 : Move) (p2 : Pokemon) (m2 : Move) (rng : ℕ → ℚ) :
    simulate_battle ft p1 m1 p2 m2 rng =
      { log := (battleLoop ft p1 m1 p2 m2 rng 1 100 0
          (p1.stats.hp : ℤ) (p2.stats.hp : ℤ)).log
        hist := ⟨0, p1.name, (p1.stats.hp : ℤ)⟩ :: ⟨0, p2.name, (p2.stats.hp : ℤ)⟩ ::
          (battleLoop ft p1 m1 p2 m2 rng 1 100 0
            (p1.stats.hp : ℤ) (p2.stats.hp : ℤ)).hist
        winner :=
          if (battleLoop ft p1 m1 p2 m2 rng 1 100 0
                (p1.stats.hp : ℤ) (p2.stats.hp : ℤ)).h1 ≤ 0 ∧
              (battleLoop ft p1 m1 p2 m2 rng 1 100 0
                (p1.stats.hp : ℤ) (p2.stats.hp : ℤ)).h2 ≤ 0 then "It\x27s a draw!"
          else if (battleLoop ft p1 m1 p2 m2 rng 1 100 0
              (p1.stats.hp : ℤ) (p2.stats.hp : ℤ)).h1 ≤ 0 then pyTitle p2.name
          else if (battleLoop ft p1 m1 p2 m2 rng 1 100 0
              (p1.stats.hp : ℤ) (p2.stats.hp : ℤ)).h2 ≤ 0 then pyTitle p1.name
          else "Draw — 100-round limit reached!" } := rfl

/-- C4: in every battle log produced by `simulate_battle`, an event
whose post-hit defender HP is 0 is followed by no further event of the
same round: the second scheduled attacker does not take its turn. -/
theorem c4_no_turn_after_faint (ft : String → Option TypeRelations)
    (p1 : Pokemon) (m1 : Move) (p2 : Pokemon) (m2 : Move) (rng : ℕ → ℚ) :
    List.Pairwise (fun a b => a.defenderHP = 0 → b.round ≠ a.round)
      (simulate_battle ft p1 m1 p2 m2 rng).log := by
  rw [simulate_battle_eq]
  exact battleLoop_pairwise ft p1 m1 p2 m2 rng 100 1 0 _ _

/-- C5: in every hp history produced by `simulate_battle`, the p1
samples (even positions) and the p2 samples (odd positions) have
monotonically non-increasing, never negative HP; each side's trace
starts at its hp stat. -/
theorem c5_hp_trace_monotone (ft : String → Option TypeRelations)
    (p1 : Pokemon) (m1 : Move) (p2 : Pokemon) (m2 : Move) (rng : ℕ → ℚ) :
    (∀ s ∈ (simulate_battle ft p1 m1 p2 m2 rng).hist, 0 ≤ s.hp) ∧
    List.Chain' (fun x y => y.hp ≤ x.hp)
      (evens (simulate_battle ft p1 m1 p2 m2 rng).hist) ∧
    List.Chain' (fun x y => y.hp ≤ x.hp)
      (odds (simulate_battle ft p1 m1 p2 m2 rng).hist) ∧
    (∀ s ∈ evens (simulate_battle ft p1 m1 p2 m2 rng).hist, s.pokemon = p1.name) ∧
    (∀ s ∈ odds (simulate_battle ft p1 m1 p2 m2 rng).hist, s.pokemon = p2.name) ∧
    (simulate_battle ft p1 m1 p2 m2 rng).hist.head? =
      some ⟨0, p1.name, (p1.stats.hp : ℤ)⟩ := by
  rw [simulate_battle_eq]
  dsimp only
  have hc := battleLoop_hist_chain ft p1 m1 p2 m2 rng 100 1 0
    (p1.stats.hp : ℤ) (p2.stats.hp : ℤ) (Int.natCast_nonneg _) (Int.natCast_nonneg _)
  have he := histChain_evens hc
  have ho := histChain_odds hc
  rw [evens_cons_cons, odds_cons_cons]
  refine ⟨?_, ?_, ?_, ?_, ?_, rfl⟩
  · intro s hs
    simp only [List.mem_cons] at hs
    rcases hs with rfl | rfl | hs
    · exact Int.natCast_nonneg _
    · exact Int.natCast_nonneg _
    · exact histChain_mem_nonneg hc s hs
  · rw [List.chain'_cons']
    exact ⟨he.2.1, he.1⟩
  · rw [List.chain'_cons']
    exact ⟨ho.2.1, ho.1⟩
  · intro s hs
    simp only [List.mem_cons] at hs
    rcases hs with rfl | hs
    · rfl
    · exact (he.2.2 s hs).1
  · intro s hs
    simp only [List.mem_cons] at hs
    rcases hs with rfl | hs
    · rfl
    · exact (ho.2.2 s hs).1

/-- C6: `simulate_battle` is a total function that executes at most 100
rounds: every logged event has round number between 1 and 100 and every
hp sample has round number at most 100. -/
theorem c6_round_bound (ft : String → Option TypeRelations)
    (p1 : Pokemon) (m1 : Move) (p2 : Pokemon) (m2 : Move) (rng : ℕ → ℚ) :
    (∀ e ∈ (simulate_battle ft p1 m1 p2 m2 rng).log,
      1 ≤ e.round ∧ e.round ≤ 100) ∧
    (∀ s ∈ (simulate_battle ft p1 m1 p2 m2 rng).hist, s.round ≤ 100) := by
  rw [simulate_battle_eq]
  dsimp only
  constructor
  · intro e he
    have := battleLoop_log_rounds ft p1 m1 p2 m2 rng 100 1 0 _ _ e he
    omega
  · intro s hs
    simp only [List.mem_cons] at hs
    rcases hs with rfl | rfl | hs
    · norm_num
    · norm_num
    · have := battleLoop_hist_rounds ft p1 m1 p2 m2 rng 100 1 0 _ _ s hs
      omega

/-- C9 (amended): when both combatants start with positive HP, the
simultaneous-KO draw is unreachable: the final HP values are never both
≤ 0, so the winner is p1's name, p2's name, or the 100-round-limit
message — never the simultaneous-KO draw string. -/
theorem c9_no_simultaneous_ko (ft : String → Option TypeRelations)
    (p1 : Pokemon) (m1 : Move) (p2 : Pokemon) (m2 : Move) (rng : ℕ → ℚ)
    (hp1 : 0 < p1.stats.hp) (hp2 : 0 < p2.stats.hp) :
    ¬((battleLoop ft p1 m1 p2 m2 rng 1 100 0
        (p1.stats.hp : ℤ) (p2.stats.hp : ℤ)).h1 ≤ 0 ∧
      (battleLoop ft p1 m1 p2 m2 rng 1 100 0
        (p1.stats.hp : ℤ) (p2.stats.hp : ℤ)).h2 ≤ 0) ∧
    ((simulate_battle ft p1 m1 p2 m2 rng).winner = pyTitle p1.name ∨
      (simulate_battle ft p1 m1 p2 m2 rng).winner = pyTitle p2.name ∨
      (simulate_battle ft p1 m1 p2 m2 rng).winner =
        "Draw — 100-round limit reached!") := by
  have hnb := battleLoop_not_both ft p1 m1 p2 m2 rng 100 1 0
    (p1.stats.hp : ℤ) (p2.stats.hp : ℤ) (by exact_mod_cast hp1) (by exact_mod_cast hp2)
  refine ⟨hnb, ?_⟩
  rw [simulate_battle_eq]
  dsimp only
  rw [if_neg hnb]
  split_ifs <;> tauto

lemma calculate_damage_zero_eff (ft : String → Option TypeRelations)
    (a d : Stats) (ts : List String) (m : Move) (r : ℚ)
    (h : get_type_effectiveness ft m.moveType ts = 0) :
    (calculate_damage ft a d ts m r).damage = 0 := by
  simp only [calculate_damage, h, mul_zero]
  split_ifs
  · exact truncToInt_zero
  · rfl

/-- C1: whenever the accuracy roll succeeds, the damage returned by
`calculate_damage` is the floor of
`((2·50/5 + 2) · power · (atk/def) / 50 + 2) · effectiveness`, the
attack/defense pair selected by damage class and the level fixed at 50. -/
theorem c1_damage_formula (ft : String → Option TypeRelations)
    (a d : Stats) (ts : List String) (m : Move) (r : ℚ)
    (hhit : r < (resolveAccuracy m.accuracy : ℚ) / 100) :
    (calculate_damage ft a d ts m r).damage =
      Int.floor (((2 * (50 : ℚ) / 5 + 2) * (m.power : ℚ) *
        (((if m.damageClass = "physical" then a.attack else a.specialAttack : ℕ) : ℚ) /
          ((if m.damageClass = "physical" then d.defense else d.specialDefense : ℕ) : ℚ))
          / 50 + 2) * get_type_effectiveness ft m.moveType ts) := by
  simp only [calculate_damage, LEVEL, if_pos hhit]
  apply truncToInt_eq_floor
  apply mul_nonneg _ (gte_nonneg ft m.moveType ts)
  split_ifs <;> positivity

/-- C1 witness: attack 100, defense 50, power 40, physical, neutral
effectiveness, accuracy 100 and roll 0 yield exactly 37 damage. -/
theorem c1_damage_formula_witness :
    ((0 : ℚ) < (resolveAccuracy mC1.accuracy : ℚ) / 100) ∧
    (calculate_damage ftW aC1 dC1 [] mC1 0).damage = 37 := by
  have hh : (0 : ℚ) < (resolveAccuracy mC1.accuracy : ℚ) / 100 := by
    norm_num [mC1, resolveAccuracy]
  refine ⟨hh, ?_⟩
  rw [c1_damage_formula ftW aC1 dC1 [] mC1 0 hh]
  rw [@gte_none ftW mC1.moveType [] rfl]
  simp only [mC1, aC1, dC1]
  norm_num

/-- C2 counterexample: with effectiveness 1/4 (dual resisted type),
power 1, attack 1 and defense 100, a hit that lands (roll 0 against
accuracy 100) truncates to 0 damage and is reported as a miss, so the
missed flag is not restricted to failed accuracy rolls. -/
theorem c2_missed_counterexample :
    ((0 : ℚ) < (resolveAccuracy mQ.accuracy : ℚ) / 100) ∧
    (calculate_damage ftQ aQ dQ ["rock", "steel"] mQ 0).effectiveness = 1 / 4 ∧
    (calculate_damage ftQ aQ dQ ["rock", "steel"] mQ 0).missed = true := by
  refine ⟨by norm_num [mQ, resolveAccuracy], ?_, ?_⟩
  · rw [calc_quarter_eval]
  · rw [calc_quarter_eval]

/-- C2 (amended): with effectiveness ≠ 0 the missed flag is true exactly
when the returned damage is 0; every failed accuracy roll is flagged as
missed, but a landed hit whose truncated damage is 0 is flagged too. -/
theorem c2_missed_amended (ft : String → Option TypeRelations)
    (a d : Stats) (ts : List String) (m : Move) (r : ℚ)
    (hne : (calculate_damage ft a d ts m r).effectiveness ≠ 0) :
    ((calculate_damage ft a d ts m r).missed = true ↔
      (calculate_damage ft a d ts m r).damage = 0) ∧
    (¬ r < (resolveAccuracy m.accuracy : ℚ) / 100 →
      (calculate_damage ft a d ts m r).missed = true) := by
  constructor
  · rw [calculate_damage_missed_iff]
    exact ⟨fun h => h.1, fun h => ⟨h, hne⟩⟩
  · intro hmiss
    rw [calculate_damage_missed_iff]
    exact ⟨calculate_damage_miss ft a d ts m r hmiss, hne⟩

/-- C2 witness: a neutral-effectiveness call on which the amended
equivalence is instantiated. -/
theorem c2_missed_amended_witness :
    ((calculate_damage ftW aC1 dC1 [] mC1 0).missed = true ↔
      (calculate_damage ftW aC1 dC1 [] mC1 0).damage = 0) := by
  refine (c2_missed_amended ftW aC1 dC1 [] mC1 0 ?_).1
  rw [calculate_damage_effectiveness, @gte_none ftW mC1.moveType [] rfl]
  norm_num

/-- C3: the damage returned by `calculate_damage` is always a
non-negative integer, and when the effectiveness multiplier is 0 the
damage is 0 for every accuracy-roll value and the missed flag is false. -/
theorem c3_damage_nonneg_immune (ft : String → Option TypeRelations)
    (a d : Stats) (ts : List String) (m : Move) (r : ℚ) :
    0 ≤ (calculate_damage ft a d ts m r).damage ∧
    ((calculate_damage ft a d ts m r).effectiveness = 0 →
      (calculate_damage ft a d ts m r).damage = 0 ∧
      (calculate_damage ft a d ts m r).missed = false) := by
  refine ⟨calculate_damage_nonneg ft a d ts m r, ?_⟩
  intro h0
  rw [calculate_damage_effectiveness] at h0
  refine ⟨calculate_damage_zero_eff ft a d ts m r h0, ?_⟩
  rw [calculate_damage_missed_def]
  simp [calculate_damage_effectiveness, h0]

/-- C3 witness: an immune matchup (effectiveness 0) yields damage 0 and
missed = false at roll 0. -/
theorem c3_damage_nonneg_immune_witness :
    (calculate_damage ftZ aC1 dC1 ["g"] mW 0).damage = 0 ∧
    (calculate_damage ftZ aC1 dC1 ["g"] mW 0).missed = false := by
  refine (c3_damage_nonneg_immune ftZ aC1 dC1 ["g"] mW 0).2 ?_
  rw [calculate_damage_effectiveness]
  exact gteZ_eval

/-- C7: a failed type lookup yields exactly 1.0; a successful lookup
yields the product of per-defending-type factors (2, 1/2, 0 or 1 by the
first matching damage list), and for 1 or 2 defender types the result is
one of 0, 1/4, 1/2, 1, 2, 4. -/
theorem c7_effectiveness_resolver (ft : String → Option TypeRelations)
    (mt : String) (ts : List String) :
    (ft mt = none → get_type_effectiveness ft mt ts = 1) ∧
    (∀ dr, ft mt = some dr →
      get_type_effectiveness ft mt ts = (ts.map (perTypeFactor dr)).prod) ∧
    ((ts.length = 1 ∨ ts.length = 2) →
      get_type_effectiveness ft mt ts ∈ ([0, 1/4, 1/2, 1, 2, 4] : List ℚ)) := by
  refine ⟨gte_none ts, fun dr h => gte_eq_prod ts h, ?_⟩
  intro hlen
  cases hft : ft mt with
  | none =>
    rw [gte_none ts hft]
    norm_num
  | some dr =>
    rw [gte_eq_prod ts hft]
    rcases hlen with h1 | h2
    · obtain ⟨t, rfl⟩ : ∃ t, ts = [t] := by
        cases ts with
        | nil => simp at h1
        | cons x xs =>
          cases xs with
          | nil => exact ⟨x, rfl⟩
          | cons y ys => simp at h1
      simp only [List.map_cons, List.map_nil, List.prod_cons, List.prod_nil, mul_one]
      have hm := perTypeFactor_mem dr t
      simp only [List.mem_cons, List.not_mem_nil, or_false] at hm
      rcases hm with h | h | h | h <;> rw [h] <;> norm_num
    · obtain ⟨t1, t2, rfl⟩ : ∃ t1 t2, ts = [t1, t2] := by
        cases ts with
        | nil => simp at h2
        | cons x xs =>
          cases xs with
          | nil => simp at h2
          | cons y ys =>
            cases ys with
            | nil => exact ⟨x, y, rfl⟩
            | cons z zs => simp at h2
      simp only [List.map_cons, List.map_nil, List.prod_cons, List.prod_nil, mul_one]
      have hm1 := perTypeFactor_mem dr t1
      have hm2 := perTypeFactor_mem dr t2
      simp only [List.mem_cons, List.not_mem_nil, or_false] at hm1 hm2
      rcases hm1 with h | h | h | h <;> rw [h] <;>
        rcases hm2 with g | g | g | g <;> rw [g] <;> norm_num

/-- C7 witness: a failed lookup is exactly 1 and lies in the allowed
value set for a single defender type. -/
theorem c7_effectiveness_resolver_witness :
    get_type_effectiveness ftW "x" ["g"] = 1 ∧
    get_type_effectiveness ftW "x" ["g"] ∈ ([0, 1/4, 1/2, 1, 2, 4] : List ℚ) := by
  refine ⟨(c7_effectiveness_resolver ftW "x" ["g"]).1 rfl, ?_⟩
  exact (c7_effectiveness_resolver ftW "x" ["g"]).2.2 (Or.inl rfl)

lemma damagingAux_fst (fm : String → Option MoveRec) :
    ∀ (l : List String) (c : ℕ), c < 50 →
      (damagingAux fm l c).1 =
        (l.take (50 - c)).filter (fun n => isDamaging (fm n)) := by
  intro l
  induction l with
  | nil =>
    intro c hc
    simp [damagingAux]
  | cons n rest ih =>
    intro c hc
    rw [damagingAux]
    by_cases h50 : 50 ≤ c + 1
    · rw [if_pos h50]
      have hc49 : c = 49 := by omega
      subst hc49
      norm_num
      cases hd : isDamaging (fm n) <;> simp [hd, List.filter_cons]
    · rw [if_neg h50]
      dsimp only
      rw [ih (c + 1) (by omega)]
      have hsub : 50 - c = (50 - (c + 1)) + 1 := by omega
      rw [hsub, List.take_succ_cons, List.filter_cons]
      cases hd : isDamaging (fm n) <;> simp [hd]

lemma damagingAux_snd_le (fm : String → Option MoveRec) :
    ∀ (l : List String) (c : ℕ), c < 50 → (damagingAux fm l c).2 ≤ 50 - c := by
  intro l
  induction l with
  | nil =>
    intro c hc
    simp [damagingAux]
  | cons n rest ih =>
    intro c hc
    rw [damagingAux]
    by_cases h50 : 50 ≤ c + 1
    · rw [if_pos h50]
      dsimp only
      omega
    · rw [if_neg h50]
      dsimp only
      have := ih (c + 1) (by omega)
      omega

/-- C8: `get_damaging_moves` equals the ordered filter of the first 50
names by positive fetched power, and performs at most 50 move lookups
regardless of the list length. -/
theorem c8_move_filter (fm : String → Option MoveRec) (names : List String) :
    get_damaging_moves fm names =
      (names.take 50).filter (fun n => isDamaging (fm n)) ∧
    lookupCount fm names ≤ 50 := by
  constructor
  · rw [get_damaging_moves, damagingAux_fst fm names 0 (by norm_num)]
  · have := damagingAux_snd_le fm names 0 (by norm_num)
    rw [lookupCount]
    omega

/-- C9 counterexample: with both hp stats equal to 0 the simultaneous-KO
branch is reached and `simulate_battle` returns the draw string. -/
theorem c9_draw_counterexample :
    (simulate_battle ftW pZ1 mW pZ2 mW rngW).winner = "It\x27s a draw!" :=
  simZ_winner

/-- C9 witness: a battle between combatants with positive HP ends with a
named winner or the 100-round-limit message. -/
theorem c9_no_simultaneous_ko_witness :
    (simulate_battle ftW pW1 mW pW2 mW rngW).winner = pyTitle pW1.name ∨
    (simulate_battle ftW pW1 mW pW2 mW rngW).winner = pyTitle pW2.name ∨
    (simulate_battle ftW pW1 mW pW2 mW rngW).winner =
      "Draw — 100-round limit reached!" :=
  (c9_no_simultaneous_ko ftW pW1 mW pW2 mW rngW (by decide) (by decide)).2

/-- C10: a move whose accuracy field is 0 is treated like an absent
accuracy: the resolved accuracy is 100, the whole result coincides with
the same move with accuracy absent, and every roll in [0,1) lands. -/
theorem c10_zero_accuracy (ft : String → Option TypeRelations)
    (a d : Stats) (ts : List String) (m : Move) (r : ℚ)
    (h0 : m.accuracy = some 0) :
    resolveAccuracy m.accuracy = 100 ∧
    calculate_damage ft a d ts m r =
      calculate_damage ft a d ts { m with accuracy := none } r ∧
    (0 ≤ r → r < 1 → r < (resolveAccuracy m.accuracy : ℚ) / 100) := by
  have hra : resolveAccuracy m.accuracy = 100 := by rw [h0]; rfl
  refine ⟨hra, ?_, ?_⟩
  · simp only [calculate_damage, hra]
    rfl
  · intro h0r h1r
    rw [hra]
    push_cast
    linarith

/-- C10 witness: a concrete accuracy-0 move equals its accuracy-absent
variant and a roll of 0 lands. -/
theorem c10_zero_accuracy_witness :
    calculate_damage ftW aC1 dC1 [] mAcc0 0 =
      calculate_damage ftW aC1 dC1 [] { mAcc0 with accuracy := none } 0 ∧
    ((0 : ℚ) < (resolveAccuracy mAcc0.accuracy : ℚ) / 100) := by
  have h := c10_zero_accuracy ftW aC1 dC1 [] mAcc0 0 rfl
  exact ⟨h.2.1, h.2.2 le_rfl (by norm_num)⟩

/-- C5 witness: a concrete recorded sample of a concrete battle has
non-negative HP. -/
theorem c5_hp_trace_monotone_witness :
    (⟨1, "b", (0 : ℤ)⟩ : HpSample) ∈ (simulate_battle ftW pW1 mW pW2 mW rngW).hist ∧
    0 ≤ (⟨1, "b", (0 : ℤ)⟩ : HpSample).hp := by
  have hm : (⟨1, "b", (0 : ℤ)⟩ : HpSample) ∈
      (simulate_battle ftW pW1 mW pW2 mW rngW).hist := by
    rw [simW_eval]
    simp
  exact ⟨hm, (c5_hp_trace_monotone ftW pW1 mW pW2 mW rngW).1 _ hm⟩

/-- C6 witness: the single event of a concrete battle has its round
number between 1 and 100. -/
theorem c6_round_bound_witness :
    evW ∈ (simulate_battle ftW pW1 mW pW2 mW rngW).log ∧
    1 ≤ evW.round ∧ evW.round ≤ 100 := by
  have hm : evW ∈ (simulate_battle ftW pW1 mW pW2 mW rngW).log := by
    rw [simW_eval]
    simp
  exact ⟨hm, (c6_round_bound ftW pW1 mW pW2 mW rngW).1 evW hm⟩

end PokeSim
